import Mathlib

/-!
Verification of the palmsim assimilate-partitioning and cohort machinery.

The Python sources under `palmsim/components` are shallowly embedded over `ℚ`.
Python floats are modelled as exact rationals; a Python `ZeroDivisionError`
is modelled by `Option` (`none` = the call raises).  The two transcendental
stress-response curves (`1 - 1/exp(a*x)` and `1 - exp(-a*x)` in
`cohorts.py`, computed with `math.exp`) are abstracted as function
parameters; the code's own runtime assertions (`assert res >= 0`,
`assert res < 1`) appear as hypotheses where needed.
-/

namespace Palmsim

/-! ## assimilates.py : partitioning -/

/-- Loop body of `prioritized_partitioning`: Python iterates over `Ds[:-1]`
(the last demand is never capped) and finally appends the remaining supply. -/
def prioritizedGo (S : ℚ) : List ℚ → List ℚ
  | [] => [S]
  | [_] => [S]
  | D :: D2 :: rest =>
      if D < S then D :: prioritizedGo (S - D) (D2 :: rest)
      else S :: prioritizedGo 0 (D2 :: rest)

/-- Embedding of `prioritized_partitioning(S, Ds)` (assimilates.py lines 319-367):
greedy allocation in list order, with the final clamp `Ss[Ss < 0] = 0`. -/
def prioritized_partitioning (S : ℚ) (Ds : List ℚ) : List ℚ :=
  (prioritizedGo S Ds).map (fun x => max x 0)

/-- Embedding of `proportionate_partitioning(S, Ds)` (assimilates.py lines 370-396).
`scalar = S / total_demand` raises `ZeroDivisionError` in Python when the total
demand is zero; that failure is modelled by `none`. -/
def proportionate_partitioning (S : ℚ) (Ds : List ℚ) : Option (List ℚ) :=
  let total := Ds.sum
  if total = 0 then none
  else some (Ds.map (fun D => S / total * D))

/-- Embedding of `parametrized_partitioning(S, Ds, k)` (assimilates.py lines 399-408):
the elementwise blend `k*prioritized + (1-k)*proportionate`. -/
def parametrized_partitioning (S : ℚ) (Ds : List ℚ) (k : ℚ) : Option (List ℚ) :=
  (proportionate_partitioning S Ds).map (fun prop =>
    List.zipWith (fun p q => k * p + (1 - k) * q) (prioritized_partitioning S Ds) prop)

/-! Basic facts about the partitioning functions. -/

lemma prioritizedGo_sum (S : ℚ) (Ds : List ℚ) : (prioritizedGo S Ds).sum = S := by
  induction Ds generalizing S with
  | nil => simp [prioritizedGo]
  | cons D rest ih =>
      cases rest with
      | nil => simp [prioritizedGo]
      | cons D2 rest2 =>
          by_cases h : D < S
          · simp [prioritizedGo, h, ih]
          · simp [prioritizedGo, h, ih]

lemma prioritizedGo_nonneg (S : ℚ) (Ds : List ℚ) (hS : 0 ≤ S)
    (hD : ∀ D ∈ Ds, 0 ≤ D) :
    ∀ x ∈ prioritizedGo S Ds, 0 ≤ x := by
  induction Ds generalizing S with
  | nil => simpa [prioritizedGo] using hS
  | cons D rest ih =>
      cases rest with
      | nil => simpa [prioritizedGo] using hS
      | cons D2 rest2 =>
          by_cases h : D < S
          · intro x hx
            simp only [prioritizedGo, if_pos h, List.mem_cons] at hx
            rcases hx with rfl | hx
            · exact hD x (by simp)
            · exact ih (S - D) (by linarith) (fun y hy => hD y (by simp [hy])) x hx
          · intro x hx
            simp only [prioritizedGo, if_neg h, List.mem_cons] at hx
            rcases hx with rfl | hx
            · exact hS
            · exact ih 0 le_rfl (fun y hy => hD y (by simp [hy])) x hx

lemma prioritizedGo_length (S : ℚ) (Ds : List ℚ) (h : Ds ≠ []) :
    (prioritizedGo S Ds).length = Ds.length := by
  induction Ds generalizing S with
  | nil => simp at h
  | cons D rest ih =>
      cases rest with
      | nil => simp [prioritizedGo]
      | cons D2 rest2 =>
          by_cases hlt : D < S
          · simp [prioritizedGo, hlt, ih (S - D) (by simp)]
          · simp [prioritizedGo, hlt, ih 0 (by simp)]

lemma prioritized_partitioning_sum (S : ℚ) (Ds : List ℚ) (hS : 0 ≤ S)
    (hD : ∀ D ∈ Ds, 0 ≤ D) :
    (prioritized_partitioning S Ds).sum = S := by
  have hclamp : ∀ l : List ℚ, (∀ x ∈ l, 0 ≤ x) → l.map (fun x => max x 0) = l := by
    intro l
    induction l with
    | nil => intro _; rfl
    | cons a l ih =>
        intro h
        simp only [List.map_cons, List.cons.injEq]
        exact ⟨max_eq_left (h a (by simp)), ih (fun x hx => h x (by simp [hx]))⟩
  rw [prioritized_partitioning,
    hclamp (prioritizedGo S Ds) (prioritizedGo_nonneg S Ds hS hD), prioritizedGo_sum]

lemma sum_zipWith_blend (k : ℚ) (xs ys : List ℚ) (h : xs.length = ys.length) :
    (List.zipWith (fun p q => k * p + (1 - k) * q) xs ys).sum
      = k * xs.sum + (1 - k) * ys.sum := by
  induction xs generalizing ys with
  | nil =>
      cases ys with
      | nil => simp
      | cons y ys => simp at h
  | cons x xs ih =>
      cases ys with
      | nil => simp at h
      | cons y ys =>
          simp only [List.zipWith_cons_cons, List.sum_cons]
          rw [ih ys (by simpa using h)]
          ring

lemma sum_map_scale (r : ℚ) (Ds : List ℚ) :
    (Ds.map (fun D => r * D)).sum = r * Ds.sum := by
  induction Ds with
  | nil => simp
  | cons D rest ih =>
      simp only [List.map_cons, List.sum_cons, ih]
      ring

lemma proportionate_partitioning_sum (S : ℚ) (Ds : List ℚ) (h : Ds.sum ≠ 0) :
    ∃ res, proportionate_partitioning S Ds = some res ∧ res.sum = S := by
  refine ⟨Ds.map (fun D => S / Ds.sum * D), ?_, ?_⟩
  · simp [proportionate_partitioning, h]
  · rw [sum_map_scale]
    field_simp

/-! ## assimilates.py : the generative share and the stress index -/

/-- Embedding of `Assimilates.get_assim_growth_generative` (assimilates.py lines
241-257): partition the growth pool `S` over the demands `[veg, gen]` with
priority `k`, take entry 1, and cap it at the generative potential. -/
def get_assim_growth_generative (S veg gen k : ℚ) : Option ℚ :=
  (parametrized_partitioning S [veg, gen] k).map (fun Ss => min (Ss.getD 1 0) gen)

/-- Embedding of `Cohorts.Ic` (cohorts_container.py lines 187-199): the ratio of
realized to potential generative growth, taken as 1 when the potential sink
strength is zero, capped at 1. -/
def Ic (assim_growth potential_sink_strength : ℚ) : ℚ :=
  let res := if potential_sink_strength = 0 then 1
             else assim_growth / potential_sink_strength
  min 1 res

/-- Embedding of `Cohorts.stress_index` (cohorts_container.py lines 201-204). -/
def stress_index (assim_growth potential_sink_strength : ℚ) : ℚ :=
  1 - Ic assim_growth potential_sink_strength

/-! ## Claim theorems on partitioning and stress -/

/-- C10: the three priority edge cases from the spec hold on
`prioritized_partitioning`: `(2, [1.5, 1]) ↦ [1.5, 0.5]`, `(2, [2, 1]) ↦ [2, 0]`
and `(4, [2, 1]) ↦ [2, 2]`. -/
theorem C10_priority_edge_cases :
    prioritized_partitioning 2 [3/2, 1] = [3/2, 1/2] ∧
    prioritized_partitioning 2 [2, 1] = [2, 0] ∧
    prioritized_partitioning 4 [2, 1] = [2, 2] := by
  refine ⟨?_, ?_, ?_⟩ <;> norm_num [prioritized_partitioning, prioritizedGo]

/-- C9: `proportionate_partitioning` with zero total demand does not return a
value; the division `S / total_demand` raises (modelled by `none`). -/
theorem C9_zero_total_demand (S : ℚ) (Ds : List ℚ) (h : Ds.sum = 0) :
    proportionate_partitioning S Ds = none := by
  simp [proportionate_partitioning, h]

/-- Witness for C9 at the concrete input `S = 1`, `Ds = [0, 0]`. -/
theorem C9_zero_total_demand_witness :
    proportionate_partitioning 1 [0, 0] = none :=
  C9_zero_total_demand 1 [0, 0] (by norm_num)

/-- C1 counterexample: at `S = 4`, `D = [2, 1]`, `k = 1/2` (supply exceeding the
total demand), the returned allocation sums to `4`, not to
`min(S, sum(D)) = 3`; the discrepancy is `1`, far beyond any floating-point
tolerance. -/
theorem C1_counterexample :
    (parametrized_partitioning 4 [2, 1] (1/2)).map List.sum = some 4 ∧
    ¬ (4 : ℚ) = min 4 (([2, 1] : List ℚ).sum) := by
  constructor
  · norm_num [parametrized_partitioning, proportionate_partitioning,
      prioritized_partitioning, prioritizedGo, List.zipWith]
  · norm_num

/-- C1 amended: for `S ≥ 0`, demands all `≥ 0` with positive total, and
`k ∈ [0, 1]`, the allocation returned by `parametrized_partitioning(S, D, k)`
sums exactly to `S` (the last demand is never capped, so the sum is `S` even
when `S > sum(D)`; when `S ≤ sum(D)` this agrees with `min(S, sum(D))`). -/
theorem C1_amended_partitioning_sum (S : ℚ) (Ds : List ℚ) (k : ℚ)
    (hS : 0 ≤ S) (hD : ∀ D ∈ Ds, 0 ≤ D) (hsum : 0 < Ds.sum)
    (_hk0 : 0 ≤ k) (_hk1 : k ≤ 1) :
    ∃ res, parametrized_partitioning S Ds k = some res ∧ res.sum = S := by
  obtain ⟨p, hp, hpsum⟩ := proportionate_partitioning_sum S Ds (ne_of_gt hsum)
  have hne : Ds ≠ [] := by
    intro h
    rw [h] at hsum
    simp at hsum
  have hplen : p.length = Ds.length := by
    have : proportionate_partitioning S Ds
        = some (Ds.map (fun D => S / Ds.sum * D)) := by
      simp [proportionate_partitioning, ne_of_gt hsum]
    rw [this] at hp
    cases hp
    simp
  refine ⟨List.zipWith (fun q r => k * q + (1 - k) * r)
    (prioritized_partitioning S Ds) p, ?_, ?_⟩
  · simp [parametrized_partitioning, hp]
  · rw [sum_zipWith_blend k _ _ (by
      rw [hplen, prioritized_partitioning, List.length_map,
        prioritizedGo_length S Ds hne])]
    rw [prioritized_partitioning_sum S Ds hS hD, hpsum]
    ring

/-- Witness for C1 (amended) at `S = 4`, `Ds = [2, 1]`, `k = 1/2`. -/
theorem C1_amended_witness :
    ∃ res, parametrized_partitioning 4 [2, 1] (1/2) = some res ∧ res.sum = 4 :=
  C1_amended_partitioning_sum 4 [2, 1] (1/2) (by norm_num)
    (by
      intro D hD
      rcases (by simpa using hD : D = 2 ∨ D = 1) with rfl | rfl <;> norm_num)
    (by norm_num) (by norm_num) (by norm_num)

/-- C8: whenever the generative allocation produced by
`get_assim_growth_generative` is nonnegative, `Ic` equals
`min(1, assim/potential)` (1 when the potential is 0), lies in `[0, 1]`, and
`stress_index = 1 - Ic` lies in `[0, 1]` as well.  The cap
`min(res, potential)` inside `get_assim_growth_generative` forces the potential
itself to be nonnegative here. -/
theorem C8_stress_index_bounds (S veg gen k assim : ℚ)
    (h : get_assim_growth_generative S veg gen k = some assim)
    (hnn : 0 ≤ assim) :
    Ic assim gen = min 1 (if gen = 0 then 1 else assim / gen) ∧
    0 ≤ Ic assim gen ∧ Ic assim gen ≤ 1 ∧
    0 ≤ stress_index assim gen ∧ stress_index assim gen ≤ 1 := by
  have hgen : 0 ≤ gen := by
    rcases hopt : parametrized_partitioning S [veg, gen] k with _ | Ss
    · rw [get_assim_growth_generative, hopt] at h
      simp only [Option.map_none'] at h
      exact absurd h (by simp)
    · rw [get_assim_growth_generative, hopt] at h
      simp only [Option.map_some', Option.some.injEq] at h
      have : assim ≤ gen := by
        rw [← h]
        exact min_le_right _ _
      linarith
  have hres : 0 ≤ (if gen = 0 then 1 else assim / gen) := by
    by_cases hg : gen = 0
    · simp [hg]
    · simp only [hg, if_false]
      exact div_nonneg hnn hgen
  have hIc : Ic assim gen = min 1 (if gen = 0 then 1 else assim / gen) := rfl
  refine ⟨hIc, ?_, ?_, ?_, ?_⟩
  · rw [hIc]
    exact le_min (by norm_num) hres
  · rw [hIc]
    exact min_le_left _ _
  · have : Ic assim gen ≤ 1 := by
      rw [hIc]
      exact min_le_left _ _
    simp only [stress_index]
    linarith
  · have : 0 ≤ Ic assim gen := by
      rw [hIc]
      exact le_min (by norm_num) hres
    simp only [stress_index]
    linarith

/-- Witness for C8 at `S = 4`, `veg = 2`, `gen = 1`, `k = 1/2`, where the
generative allocation evaluates to `1`. -/
theorem C8_stress_index_bounds_witness :
    Ic 1 1 = min 1 (if (1 : ℚ) = 0 then 1 else 1 / 1) ∧
    0 ≤ Ic 1 1 ∧ Ic 1 1 ≤ 1 ∧
    0 ≤ stress_index 1 1 ∧ stress_index 1 1 ≤ 1 :=
  C8_stress_index_bounds 4 2 1 (1/2) 1
    (by
      norm_num [get_assim_growth_generative, parametrized_partitioning,
        proportionate_partitioning, prioritized_partitioning, prioritizedGo,
        List.zipWith])
    (by norm_num)

/-! ## trunk.py -/

/-- Trunk state: `mass` and the lignified sub-state (trunk.py `__init__`). -/
structure TrunkState where
  mass : ℚ
  lignified_mass : ℚ
deriving DecidableEq

/-- Embedding of `Trunk.density` (trunk.py lines 273-282): `7.62 * YAP + 83`. -/
def trunk_density (YAP : ℚ) : ℚ := (381/50) * YAP + 83

/-- Embedding of `Trunk.volume` (trunk.py lines 284-290): `mass / density`. -/
def trunk_volume (st : TrunkState) (YAP : ℚ) : ℚ := st.mass / trunk_density YAP

/-- Embedding of `Trunk.lignified_mass_change_rate` (trunk.py lines 292-300):
`volume * (lignification_rate / days_in_month)` with `lignification_rate = 0.74`;
the rate does not depend on `lignified_mass` and is not capped. -/
def lignified_mass_change_rate (st : TrunkState) (YAP days_in_month : ℚ) : ℚ :=
  trunk_volume st YAP * ((37/50) / days_in_month)

/-- Embedding of `Trunk.mass_growth_rate` (trunk.py lines 192-198):
`conversion_efficiency * assim_growth` with `conversion_efficiency = 0.69`. -/
def trunk_mass_growth_rate (assim_growth : ℚ) : ℚ := (69/100) * assim_growth

/-- Embedding of `Trunk.mass_change_rate` (trunk.py lines 186-190); the
`mass_loss_rate` parameter is `0.0`. -/
def trunk_mass_change_rate (assim_growth : ℚ) : ℚ :=
  trunk_mass_growth_rate assim_growth - 0

/-- Embedding of `Trunk.update` (trunk.py lines 175-182): `lignified_mass` is
incremented first (from the pre-update mass), then `mass`. -/
def trunk_update (st : TrunkState) (assim_growth YAP days_in_month dt : ℚ) :
    TrunkState :=
  { lignified_mass :=
      st.lignified_mass + lignified_mass_change_rate st YAP days_in_month * dt,
    mass := st.mass + trunk_mass_change_rate assim_growth * dt }

/-- C3 counterexample: from the state `mass = 83`, `lignified_mass = 82.99 < 83`
with zero assimilates, `YAP = 0`, a 30-day month and `dt = 1`, one update pushes
`lignified_mass` above `mass`: no cap exists in the code. -/
theorem C3_counterexample :
    (8299/100 : ℚ) < 83 ∧
    (trunk_update ⟨83, 8299/100⟩ 0 0 30 1).mass
      < (trunk_update ⟨83, 8299/100⟩ 0 0 30 1).lignified_mass := by
  constructor
  · norm_num
  · norm_num [trunk_update, trunk_mass_change_rate, trunk_mass_growth_rate,
      lignified_mass_change_rate, trunk_volume, trunk_density]

/-- C3 amended: across every update with nonnegative mass, age, timestep and a
positive month length, `lignified_mass` never decreases; its change rate is
exactly `volume * (lignification_rate / days_in_month)`, with no cap, so
`lignified_mass` is not prevented from exceeding `mass`. -/
theorem C3_amended_lignified_monotone (st : TrunkState)
    (assim_growth YAP days_in_month dt : ℚ)
    (hm : 0 ≤ st.mass) (hY : 0 ≤ YAP) (hdim : 0 < days_in_month)
    (hdt : 0 ≤ dt) :
    st.lignified_mass
      ≤ (trunk_update st assim_growth YAP days_in_month dt).lignified_mass ∧
    (trunk_update st assim_growth YAP days_in_month dt).lignified_mass
      = st.lignified_mass
        + st.mass / trunk_density YAP * ((37/50) / days_in_month) * dt := by
  have hdens : 0 < trunk_density YAP := by
    simp only [trunk_density]
    nlinarith
  have hrate : 0 ≤ lignified_mass_change_rate st YAP days_in_month := by
    simp only [lignified_mass_change_rate, trunk_volume]
    have h1 : 0 ≤ st.mass / trunk_density YAP := div_nonneg hm (le_of_lt hdens)
    have h2 : 0 ≤ (37/50 : ℚ) / days_in_month := by positivity
    exact mul_nonneg h1 h2
  constructor
  · simp only [trunk_update]
    nlinarith
  · simp only [trunk_update, lignified_mass_change_rate, trunk_volume]

/-- Witness for C3 (amended) at `mass = 83`, `lignified_mass = 0`, zero
assimilates, `YAP = 0`, a 30-day month and `dt = 1`. -/
theorem C3_amended_witness :
    (0 : ℚ) ≤ (trunk_update ⟨83, 0⟩ 0 0 30 1).lignified_mass ∧
    (trunk_update ⟨83, 0⟩ 0 0 30 1).lignified_mass
      = 0 + (83 : ℚ) / trunk_density 0 * ((37/50) / 30) * 1 :=
  C3_amended_lignified_monotone ⟨83, 0⟩ 0 0 30 1 (by norm_num) (by norm_num)
    (by norm_num) (by norm_num)

/-! ## helpers.py / bunch_components.py -/

/-- Embedding of `make_quadratic_function(x1, x2, A)` (helpers.py lines 29-63):
the downward parabola through `(x1, 0)` and `(x2, 0)` with area `A`, clamped to
`0` outside `(x1, x2)` and at negative values. -/
def quadratic_function (x1 x2 A x : ℚ) : ℚ :=
  let W := x2 - x1
  let h := (3/2) * A / W
  let hw := (1/2) * (x2 - x1)
  if x ≤ x1 then 0
  else if x ≥ x2 then 0
  else max 0 (-h * (x - x1) * (x - x2) / hw ^ 2)

/-- The four bunch-component classes of bunch_components.py. -/
inductive CompKind
  | stalk
  | mesocarpFibers
  | mesocarpOil
  | kernels
deriving DecidableEq

/-- Parameter `conversion_efficiency` per component class. -/
def conversion_efficiency : CompKind → ℚ
  | .stalk => 69/100
  | .mesocarpFibers => 69/100
  | .mesocarpOil => 42/100
  | .kernels => 42/100

/-- Parameter `t_growth_start` (a fraction of `t_maturity`) per class. -/
def growth_start_frac : CompKind → ℚ
  | .stalk => 0
  | .mesocarpFibers => 825/1000
  | .mesocarpOil => 9/10
  | .kernels => 875/1000

/-- Parameter `t_growth_end` (a fraction of `t_maturity`) per class. -/
def growth_end_frac : CompKind → ℚ
  | .stalk => 3/4
  | .mesocarpFibers => 95/100
  | .mesocarpOil => 95/100
  | .kernels => 975/1000

/-- Parameter `potential_mass_fraction` per class. -/
def potential_mass_fraction : CompKind → ℚ
  | .stalk => 1/4
  | .mesocarpFibers => 35/100
  | .mesocarpOil => 35/100
  | .kernels => 5/100

/-- State of one `BunchComponent` (bunch_components.py): its class, the
potential mass and maturity reference fixed at construction, and the mutable
`mass`, `age` and stored `potential_sink_strength` field (the stored field is
re-set only by the constructor, `update_age` and `copy`). -/
structure BunchComp where
  kind : CompKind
  potential_mass : ℚ
  t_maturity : ℚ
  mass : ℚ
  age : ℚ
  potential_sink_strength : ℚ
deriving DecidableEq

instance : Inhabited BunchComp :=
  ⟨⟨.stalk, 0, 1200, 0, 0, 0⟩⟩

/-- Embedding of `BunchComponent.mass_growth_rate_potential` (lines 127-133):
the potential growth curve evaluated at the component's current age. -/
def mass_growth_rate_potential (c : BunchComp) : ℚ :=
  quadratic_function (c.t_maturity * growth_start_frac c.kind)
    (c.t_maturity * growth_end_frac c.kind) c.potential_mass c.age

/-- Embedding of `BunchComponent.get_potential_sink_strength` (lines 117-125):
`mass_growth_rate_potential / conversion_efficiency`. -/
def get_potential_sink_strength (c : BunchComp) : ℚ :=
  mass_growth_rate_potential c / conversion_efficiency c.kind

/-- Embedding of the `BunchComponent.__init__` constructor with an explicit
`potential_mass` (as `copy` and `set_fruit` use it): fresh mass `0`, the given
age, and the stored sink strength initialized from the state. -/
def mkBunchComp (kind : CompKind) (potMass tMat age : ℚ) : BunchComp :=
  let c : BunchComp :=
    { kind := kind, potential_mass := potMass, t_maturity := tMat,
      mass := 0, age := age, potential_sink_strength := 0 }
  { c with potential_sink_strength := get_potential_sink_strength c }

/-- Embedding of `BunchComponent.copy` (lines 202-229): a fresh component of
the same class with the same `potential_mass`/`t_maturity`, the `mass` and
`age` carried over, and the stored sink strength re-set from the duplicate. -/
def BunchComp.copy (c : BunchComp) : BunchComp :=
  { c with potential_sink_strength := get_potential_sink_strength c }

/-- Embedding of `BunchComponent.update_age` (lines 195-198): increment the age
and re-set the stored potential sink strength at the new age. -/
def update_age_step (dt : ℚ) (c : BunchComp) : BunchComp :=
  let c1 := { c with age := c.age + dt }
  { c1 with potential_sink_strength := get_potential_sink_strength c1 }

/-! ## cohorts.py : cohort state -/

/-- Sex tags of the three concrete cohort classes. -/
inductive Sex
  | indeterminate
  | male
  | female
deriving DecidableEq

/-- State of one cohort (cohorts.py).  `t_differentiation` is meaningful for
indeterminates (set at creation), `has_flowered` for females.  The cohort-level
`potential_mass` (in the code a transcendental function of planting age for
indeterminates, and a value fixed at the sex split for males/females) is
carried as a state field. -/
structure CohortState where
  sex : Sex
  num_inflorescences : ℚ
  age : ℚ
  t_maturity : ℚ
  t_differentiation : ℚ
  potential_mass : ℚ
  has_flowered : Bool
  relative_sink_strength : ℚ
  components : List BunchComp
deriving DecidableEq

/-- Embedding of `Cohort.potential_sink_strength` (cohorts.py lines 92-95): the
sum of the components' stored sink strengths. -/
def cohort_pss (comps : List BunchComp) : ℚ :=
  (comps.map (fun c => c.potential_sink_strength)).sum

/-- Embedding of `Cohort.cohort_sink_strength` (cohorts.py lines 97-102). -/
def cohort_sink_strength (st : CohortState) : ℚ :=
  st.num_inflorescences * cohort_pss st.components

/-- Embedding of `Cohort.assim_growth_organ` (cohorts.py lines 136-144) given
the container-level generative assimilate pool: the cohort's share
`relative_sink_strength * assim_growth` divided by its count (0 for an empty
cohort). -/
def assim_growth_organ (st : CohortState) (assimGen : ℚ) : ℚ :=
  if st.num_inflorescences > 0
  then st.relative_sink_strength * assimGen / st.num_inflorescences
  else 0

/-- Embedding of one `BunchComponent.update_mass` call (bunch_components.py
lines 163-198) at a given cohort sink-strength total: the realized rate is
`min(mass_growth_rate_potential, conversion_efficiency * assim_growth)` where
`assim_growth = relative_sink_strength * assim_growth_organ`. -/
def component_mass_step (assimOrgan cohortPss dt : ℚ) (c : BunchComp) :
    BunchComp :=
  let rss := if cohortPss > 0 then c.potential_sink_strength / cohortPss else 0
  let rate := min (mass_growth_rate_potential c)
    (conversion_efficiency c.kind * (rss * assimOrgan))
  { c with mass := c.mass + rate * dt }

/-- Embedding of the first loop of `Cohort._update` (cohorts.py lines 197-198):
`update_mass` is called on each component in turn, each call reading the
cohort's potential sink strength from the then-current component list. -/
def update_masses_go (assimOrgan dt : ℚ) (done : List BunchComp) :
    List BunchComp → List BunchComp
  | [] => done
  | c :: rest =>
      let total := cohort_pss (done ++ c :: rest)
      update_masses_go assimOrgan dt
        (done ++ [component_mass_step assimOrgan total dt c]) rest

/-- Stress-response curves: abstraction of the two `math.exp`-based fractions
`_inflorescence_abortion_fraction = 1 - 1/exp(0.95*x)` (cohorts.py lines
600-616) and `_bunch_failure_fraction = 1 - exp(-0.95*x)` (lines 636-652).
The transcendental `exp` has no exact rational embedding; the code asserts
`0 <= value < 1` for both, and those assertions appear as hypotheses in the
theorems that need them. -/
structure StressFns where
  infl : ℚ → ℚ
  bunch : ℚ → ℚ

/-- Event timing `inflorescence_abortion_t0 = 0.75 * t_maturity`
(`Female.set_event_timings`, cohorts.py lines 539-553). -/
def inflorescence_abortion_t0 (T : ℚ) : ℚ := T * (75/100)

/-- Event timing `inflorescence_abortion_t1 = t0 + 0.03 * t_maturity`. -/
def inflorescence_abortion_t1 (T : ℚ) : ℚ :=
  inflorescence_abortion_t0 T + T * (3/100)

/-- Event timing `bunch_failure_t0 = 0.92 * t_maturity`. -/
def bunch_failure_t0 (T : ℚ) : ℚ := T * (92/100)

/-- Event timing `bunch_failure_t1 = t0 + 0.03 * t_maturity`. -/
def bunch_failure_t1 (T : ℚ) : ℚ := bunch_failure_t0 T + T * (3/100)

/-- Event timing `t_anthesis = 0.82 * t_maturity`. -/
def t_anthesis (T : ℚ) : ℚ := T * (82/100)

/-- Embedding of `Female.inflorescence_abortion_fraction` (cohorts.py lines
582-598): the stress response gated to the age window `[t0, t1)`; the
`stress_inflorescence_abortion` parameter is `1`, so the early `return 0`
branch is dead code. -/
def inflorescence_abortion_fraction (f : StressFns) (stress : ℚ)
    (st : CohortState) : ℚ :=
  if inflorescence_abortion_t0 st.t_maturity ≤ st.age ∧
      st.age < inflorescence_abortion_t1 st.t_maturity
  then f.infl stress else 0

/-- Embedding of `Female.bunch_failure_fraction` (cohorts.py lines 618-634). -/
def bunch_failure_fraction (f : StressFns) (stress : ℚ)
    (st : CohortState) : ℚ :=
  if bunch_failure_t0 st.t_maturity ≤ st.age ∧
      st.age < bunch_failure_t1 st.t_maturity
  then f.bunch stress else 0

/-- Embedding of `abortion_fraction`: for Female the sum of the two gated
fractions (cohorts.py lines 577-580); for Male the `_abortion_fraction = 0` set
in `Male.__init__` (line 745); for Indeterminate the parameter value `0`
(cohorts.py lines 236-240). -/
def abortion_fraction (f : StressFns) (stress : ℚ) (st : CohortState) : ℚ :=
  match st.sex with
  | .female =>
      inflorescence_abortion_fraction f stress st
        + bunch_failure_fraction f stress st
  | .male => 0
  | .indeterminate => 0

/-- Embedding of `Cohort._update` (cohorts.py lines 181-211): update every
component's mass, then every component's age (and stored sink strength), then
scale `num_inflorescences` by `max(0, 1 - abortion_fraction*dt)` (the abortion
fraction reads the cohort age before it is incremented), then `age += dt`. -/
def cohort_update (f : StressFns) (stress assimGen dt : ℚ)
    (st : CohortState) : CohortState :=
  let assimOrgan := assim_growth_organ st assimGen
  let comps1 := update_masses_go assimOrgan dt [] st.components
  let comps2 := comps1.map (update_age_step dt)
  let survival := max 0 (1 - abortion_fraction f stress st * dt)
  { st with components := comps2,
            num_inflorescences := st.num_inflorescences * survival,
            age := st.age + dt }

/-- Embedding of `Female.set_fruit` (cohorts.py lines 654-681): instantiate the
mesocarp oil, mesocarp fibers and kernel components at the cohort's current
age (each with `potential_mass_fraction * potential_mass` via
`get_potential_mass`), re-assemble `components` as
`[stalk, mesocarp_fibers, mesocarp_oil, kernel]` (`self.stalk` aliases the
head of the component list), and set `has_flowered`. -/
def set_fruit (st : CohortState) : CohortState :=
  let stalkC := st.components.headI
  let mo := mkBunchComp .mesocarpOil
    (potential_mass_fraction .mesocarpOil * st.potential_mass)
    st.t_maturity st.age
  let mf := mkBunchComp .mesocarpFibers
    (potential_mass_fraction .mesocarpFibers * st.potential_mass)
    st.t_maturity st.age
  let kr := mkBunchComp .kernels
    (potential_mass_fraction .kernels * st.potential_mass)
    st.t_maturity st.age
  { st with components := [stalkC, mf, mo, kr], has_flowered := true }

/-- Embedding of `Female.should_trigger_flowering` (cohorts.py lines 683-686):
`age > t_anthesis and not has_flowered`. -/
def should_trigger_flowering (st : CohortState) : Bool :=
  decide (st.age > t_anthesis st.t_maturity) && !st.has_flowered

/-- Embedding of `Female.update` (cohorts.py lines 558-564): the generic
`_update`, then `set_fruit` if flowering should trigger. -/
def female_update (f : StressFns) (stress assimGen dt : ℚ)
    (st : CohortState) : CohortState :=
  let st1 := cohort_update f stress assimGen dt st
  if should_trigger_flowering st1 then set_fruit st1 else st1

/-- Dispatch of `cohort.update` as `Cohorts.update_existing_cohorts` performs
it: `Female` overrides `update`, `Male` and `Indeterminate` inherit the base
`Cohort.update = _update`. -/
def cohort_step (f : StressFns) (stress assimGen dt : ℚ)
    (st : CohortState) : CohortState :=
  match st.sex with
  | .female => female_update f stress assimGen dt st
  | _ => cohort_update f stress assimGen dt st

/-- Embedding of `Female.is_harvestible` (cohorts.py lines 688-691):
`age >= t_maturity`. -/
def is_harvestible (st : CohortState) : Bool :=
  decide (st.age ≥ st.t_maturity)

/-- Embedding of the per-class `is_deletable` properties (cohorts.py lines
417-425, 693-696, 747-750). -/
def is_deletable (st : CohortState) : Bool :=
  match st.sex with
  | .female => decide (st.age ≥ st.t_maturity)
  | .male => decide (st.age > st.t_maturity)
  | .indeterminate => decide (st.age > st.t_differentiation)

/-- Embedding of `Indeterminate.to_female` (cohorts.py lines 392-415): a fresh
Female built from the container's current `t_maturity` and the indeterminate's
current `potential_mass` (both passed in), carrying a `copy` of the stalk, the
parent's age, and the female share `f` of `num_inflorescences` and
`relative_sink_strength`. -/
def to_female (femFrac tMat potMass : ℚ) (st : CohortState) : CohortState :=
  { sex := .female,
    num_inflorescences := femFrac * st.num_inflorescences,
    age := st.age,
    t_maturity := tMat,
    t_differentiation := 0,
    potential_mass := potMass,
    has_flowered := false,
    relative_sink_strength := femFrac * st.relative_sink_strength,
    components := [(st.components.headI).copy] }

/-- Embedding of `Indeterminate.to_male` (cohorts.py lines 368-390): as
`to_female` but with the complementary share `1 - f`. -/
def to_male (femFrac tMat potMass : ℚ) (st : CohortState) : CohortState :=
  { sex := .male,
    num_inflorescences := (1 - femFrac) * st.num_inflorescences,
    age := st.age,
    t_maturity := tMat,
    t_differentiation := 0,
    potential_mass := potMass,
    has_flowered := false,
    relative_sink_strength := (1 - femFrac) * st.relative_sink_strength,
    components := [(st.components.headI).copy] }

/-! ## cohorts_container.py -/

/-- Container state: the ordered cohort list (creation order: new
indeterminates are appended, so ages are descending along the list), the
recorded harvest (`_bunches`), and the stored total potential sink strength
set at the end of the previous update. -/
structure ContainerState where
  cohorts : List CohortState
  bunches : List CohortState
  potential_sink_strength : ℚ
deriving DecidableEq

/-- Embedding of `Cohorts.update_sex` (cohorts_container.py lines 341-360):
every indeterminate past its differentiation age is replaced, in place, by its
female child followed by its male child. -/
def update_sex (femFrac tMat potMass : ℚ) (cohorts : List CohortState) :
    List CohortState :=
  cohorts.flatMap (fun c =>
    if c.sex = .indeterminate ∧ c.age > c.t_differentiation
    then [to_female femFrac tMat potMass c, to_male femFrac tMat potMass c]
    else [c])

/-- Embedding of `Cohorts.update_new_cohorts` plus `Indeterminate.__init__`
(cohorts_container.py lines 362-368, cohorts.py lines 276-301): a fresh
indeterminate with `num_inflorescences = initiation_rate * dt`, age 0,
`t_differentiation = 0.2 * t_maturity`, and a stalk whose `potential_mass` is
`0.25 * potential_mass` and whose maturity reference is the constructor
default `1200` (the code calls `Stalk(self)` without passing `t_maturity`). -/
def new_indeterminate (tMat potMass initRate dt : ℚ) : CohortState :=
  { sex := .indeterminate,
    num_inflorescences := initRate * dt,
    age := 0,
    t_maturity := tMat,
    t_differentiation := tMat * (2/10),
    potential_mass := potMass,
    has_flowered := false,
    relative_sink_strength := 0,
    components := [mkBunchComp .stalk (potential_mass_fraction .stalk * potMass) 1200 0] }

/-- The harvest filter of `Cohorts.update` (cohorts_container.py line 313):
`[x for x in self._females if x.is_harvestible]` in list order. -/
def harvest_list (cohorts : List CohortState) : List CohortState :=
  (cohorts.filter (fun c => decide (c.sex = .female))).filter is_harvestible

/-- The recording step of `Cohorts.update` (lines 313-318): if any female is
harvestible, `_bunches` becomes the singleton holding `harvest[0]`, the first
harvestible female in list order; otherwise it is left unchanged. -/
def record_bunches (cohorts bunches : List CohortState) : List CohortState :=
  match harvest_list cohorts with
  | [] => bunches
  | h :: _ => [h]

/-- The cohort list after the aging/splitting/initiation phases of
`Cohorts.update` (lines 291-305): update every cohort, run sex
differentiation, append one new indeterminate. -/
def container_aged (f : StressFns) (stress assimGen femFrac tMat potMass
    initRate dt : ℚ) (cohorts : List CohortState) : List CohortState :=
  update_sex femFrac tMat potMass (cohorts.map (cohort_step f stress assimGen dt))
    ++ [new_indeterminate tMat potMass initRate dt]

/-- Embedding of `Cohort.get_relative_sink_strength` (cohorts.py lines
104-121) applied to all survivors (`Cohorts.set_relative_sink_strengths`). -/
def set_relative_sink_strengths (total : ℚ) (cohorts : List CohortState) :
    List CohortState :=
  cohorts.map (fun c =>
    { c with relative_sink_strength :=
        if total = 0 then 0 else cohort_sink_strength c / total })

/-- Embedding of `Cohorts.update` (cohorts_container.py lines 264-326).  The
stress index the cohorts read during their update is the container's
`stress_index` computed from this step's `assim_growth` and the stored
potential sink strength; the harvest is recorded from the aged list BEFORE
deletable cohorts are removed; finally the total potential sink strength and
the relative shares are recomputed over the survivors. -/
def container_update (f : StressFns) (assimGen femFrac tMat potMass
    initRate dt : ℚ) (st : ContainerState) : ContainerState :=
  let stress := stress_index assimGen st.potential_sink_strength
  let aged := container_aged f stress assimGen femFrac tMat potMass initRate dt
    st.cohorts
  let bunches := record_bunches aged st.bunches
  let remaining := aged.filter (fun c => !(is_deletable c))
  let total := (remaining.map cohort_sink_strength).sum
  { cohorts := set_relative_sink_strengths total remaining,
    bunches := bunches,
    potential_sink_strength := total }

/-! ## Claim theorems on the cohort machinery -/

/-- C4: immediately after an indeterminate splits, the children's
`num_inflorescences` and `relative_sink_strength` sum to the parent's, and
both children's stalks carry the parent stalk's mass and age. -/
theorem C4_split_conservation (femFrac tMat potMass : ℚ) (st : CohortState) :
    (to_male femFrac tMat potMass st).num_inflorescences
        + (to_female femFrac tMat potMass st).num_inflorescences
      = st.num_inflorescences ∧
    (to_male femFrac tMat potMass st).relative_sink_strength
        + (to_female femFrac tMat potMass st).relative_sink_strength
      = st.relative_sink_strength ∧
    ((to_male femFrac tMat potMass st).components.headI).mass
      = (st.components.headI).mass ∧
    ((to_female femFrac tMat potMass st).components.headI).mass
      = (st.components.headI).mass ∧
    ((to_male femFrac tMat potMass st).components.headI).age
      = (st.components.headI).age ∧
    ((to_female femFrac tMat potMass st).components.headI).age
      = (st.components.headI).age := by
  refine ⟨?_, ?_, rfl, rfl, rfl, rfl⟩ <;>
    simp only [to_male, to_female] <;> ring

lemma component_mass_step_pss (assimOrgan total dt : ℚ) (c : BunchComp) :
    (component_mass_step assimOrgan total dt c).potential_sink_strength
      = c.potential_sink_strength := rfl

lemma update_masses_go_eq (assimOrgan dt : ℚ) (pending done : List BunchComp) :
    update_masses_go assimOrgan dt done pending =
      done ++ pending.map
        (component_mass_step assimOrgan (cohort_pss (done ++ pending)) dt) := by
  induction pending generalizing done with
  | nil => simp [update_masses_go]
  | cons c rest ih =>
      rw [update_masses_go, ih]
      have hpss :
          cohort_pss ((done
              ++ [component_mass_step assimOrgan (cohort_pss (done ++ c :: rest))
                    dt c]) ++ rest)
            = cohort_pss (done ++ c :: rest) := by
        simp [cohort_pss, component_mass_step_pss]
      rw [hpss]
      simp [List.append_assoc]

/-- Specification-side description of one whole component step, following the
spec's words: the realized growth `min(potential_growth_rate(age),
conversion_efficiency * allocated_assimilate) * dt` is evaluated at the
component's PRE-update age and at the cohort's pre-update stored sink
strengths; only then is the age incremented and the potential sink strength
recomputed at the new age. -/
def component_step_spec (assimOrgan totalPss dt : ℚ) (c : BunchComp) :
    BunchComp :=
  let rss := if totalPss > 0 then c.potential_sink_strength / totalPss else 0
  let rate := min (mass_growth_rate_potential c)
    (conversion_efficiency c.kind * (rss * assimOrgan))
  let c1 := { c with mass := c.mass + rate * dt, age := c.age + dt }
  { c1 with potential_sink_strength := get_potential_sink_strength c1 }

/-- C5: `Cohort._update` refines the spec-side step: every component's
post-update state equals the spec-side map computed entirely from the
pre-update state (mass from the pre-update age and pre-update sink strengths,
age incremented afterwards, sink strength recomputed at the new age); hence no
component's age or stored sink strength influences any mass update of the same
step.  The cohort's own age also advances by exactly `dt`. -/
theorem C5_update_order (f : StressFns) (stress assimGen dt : ℚ)
    (st : CohortState) :
    (cohort_update f stress assimGen dt st).components =
      st.components.map
        (component_step_spec (assim_growth_organ st assimGen)
          (cohort_pss st.components) dt) ∧
    (cohort_update f stress assimGen dt st).age = st.age + dt := by
  constructor
  · show (update_masses_go (assim_growth_organ st assimGen) dt []
        st.components).map (update_age_step dt) = _
    rw [update_masses_go_eq]
    simp only [List.nil_append, List.map_map]
    rfl
  · rfl

lemma cohort_update_num (f : StressFns) (stress assimGen dt : ℚ)
    (st : CohortState) :
    (cohort_update f stress assimGen dt st).num_inflorescences
      = st.num_inflorescences
        * max 0 (1 - abortion_fraction f stress st * dt) := rfl

lemma female_update_num (f : StressFns) (stress assimGen dt : ℚ)
    (st : CohortState) :
    (female_update f stress assimGen dt st).num_inflorescences
      = st.num_inflorescences
        * max 0 (1 - abortion_fraction f stress st * dt) := by
  rw [female_update]
  by_cases h : should_trigger_flowering (cohort_update f stress assimGen dt st)
  · simp only [h, if_true]
    exact cohort_update_num f stress assimGen dt st
  · simp only [h, Bool.false_eq_true, if_false]
    exact cohort_update_num f stress assimGen dt st

/-- C6: on every update of a Female cohort, `num_inflorescences` is multiplied
by `max(0, 1 - abortion_fraction*dt)`; the abortion fraction is nonnegative
(given the code's assertions `0 <= response` on the two stress-response
curves) and vanishes outside both the inflorescence-abortion window `[t0, t1)`
and the bunch-failure window, so a Female's count never increases; a Male's
abortion fraction is identically `0`, so its count never changes after the
split. -/
theorem C6_abortion_monotone (f : StressFns) (stress assimGen dt : ℚ)
    (st : CohortState) (hfem : st.sex = .female)
    (hinfl : 0 ≤ f.infl stress) (hbunch : 0 ≤ f.bunch stress)
    (hnum : 0 ≤ st.num_inflorescences) (hdt : 0 ≤ dt) :
    (cohort_step f stress assimGen dt st).num_inflorescences
        = st.num_inflorescences
          * max 0 (1 - abortion_fraction f stress st * dt) ∧
    0 ≤ abortion_fraction f stress st ∧
    (¬ (inflorescence_abortion_t0 st.t_maturity ≤ st.age ∧
          st.age < inflorescence_abortion_t1 st.t_maturity) →
      ¬ (bunch_failure_t0 st.t_maturity ≤ st.age ∧
          st.age < bunch_failure_t1 st.t_maturity) →
      abortion_fraction f stress st = 0) ∧
    (cohort_step f stress assimGen dt st).num_inflorescences
        ≤ st.num_inflorescences ∧
    (∀ stM : CohortState, stM.sex = .male →
      abortion_fraction f stress stM = 0 ∧
      (cohort_step f stress assimGen dt stM).num_inflorescences
        = stM.num_inflorescences) := by
  have hstep : (cohort_step f stress assimGen dt st).num_inflorescences
      = st.num_inflorescences
        * max 0 (1 - abortion_fraction f stress st * dt) := by
    rw [cohort_step, hfem]
    exact female_update_num f stress assimGen dt st
  have hafr : 0 ≤ abortion_fraction f stress st := by
    rw [abortion_fraction, hfem]
    simp only
    have h1 : 0 ≤ inflorescence_abortion_fraction f stress st := by
      rw [inflorescence_abortion_fraction]
      split
      · exact hinfl
      · exact le_rfl
    have h2 : 0 ≤ bunch_failure_fraction f stress st := by
      rw [bunch_failure_fraction]
      split
      · exact hbunch
      · exact le_rfl
    linarith
  refine ⟨hstep, hafr, ?_, ?_, ?_⟩
  · intro hw1 hw2
    rw [abortion_fraction, hfem]
    simp only [inflorescence_abortion_fraction, bunch_failure_fraction,
      if_neg hw1, if_neg hw2, add_zero]
  · rw [hstep]
    have hsurv1 : max 0 (1 - abortion_fraction f stress st * dt) ≤ 1 := by
      have : 0 ≤ abortion_fraction f stress st * dt := mul_nonneg hafr hdt
      have h1 : (1 : ℚ) - abortion_fraction f stress st * dt ≤ 1 := by linarith
      exact max_le (by norm_num) h1
    nlinarith [le_max_left (0 : ℚ)
      (1 - abortion_fraction f stress st * dt)]
  · intro stM hM
    have hab : abortion_fraction f stress stM = 0 := by
      rw [abortion_fraction, hM]
    refine ⟨hab, ?_⟩
    have : (cohort_step f stress assimGen dt stM).num_inflorescences
        = stM.num_inflorescences
          * max 0 (1 - abortion_fraction f stress stM * dt) := by
      rw [cohort_step, hM]
      exact cohort_update_num f stress assimGen dt stM
    rw [this, hab]
    norm_num

/-- Witness for C6 at a concrete young Female cohort (age 0, maturity 1200)
with zero stress responses, unit count and `dt = 1`. -/
theorem C6_abortion_monotone_witness :
    (cohort_step ⟨fun _ => 0, fun _ => 0⟩ 0 0 1
        ⟨.female, 1, 0, 1200, 240, 10, false, 0, []⟩).num_inflorescences
      = (1 : ℚ) * max 0 (1 - abortion_fraction ⟨fun _ => 0, fun _ => 0⟩ 0
          ⟨.female, 1, 0, 1200, 240, 10, false, 0, []⟩ * 1) ∧
    0 ≤ abortion_fraction ⟨fun _ => 0, fun _ => 0⟩ 0
        ⟨.female, 1, 0, 1200, 240, 10, false, 0, []⟩ ∧
    (¬ (inflorescence_abortion_t0 1200 ≤ (0 : ℚ) ∧
          (0 : ℚ) < inflorescence_abortion_t1 1200) →
      ¬ (bunch_failure_t0 1200 ≤ (0 : ℚ) ∧ (0 : ℚ) < bunch_failure_t1 1200) →
      abortion_fraction ⟨fun _ => 0, fun _ => 0⟩ 0
        ⟨.female, 1, 0, 1200, 240, 10, false, 0, []⟩ = 0) ∧
    (cohort_step ⟨fun _ => 0, fun _ => 0⟩ 0 0 1
        ⟨.female, 1, 0, 1200, 240, 10, false, 0, []⟩).num_inflorescences
      ≤ (1 : ℚ) ∧
    (∀ stM : CohortState, stM.sex = .male →
      abortion_fraction ⟨fun _ => 0, fun _ => 0⟩ 0 stM = 0 ∧
      (cohort_step ⟨fun _ => 0, fun _ => 0⟩ 0 0 1 stM).num_inflorescences
        = stM.num_inflorescences) :=
  C6_abortion_monotone ⟨fun _ => 0, fun _ => 0⟩ 0 0 1
    ⟨.female, 1, 0, 1200, 240, 10, false, 0, []⟩ rfl le_rfl le_rfl
    (by norm_num) (by norm_num)

/-- The list of component classes a cohort currently owns, in order. -/
def cohort_kinds (st : CohortState) : List CompKind :=
  st.components.map (fun c => c.kind)

/-- Iterated `Female.update` under an arbitrary per-step input sequence
(stress, generative assimilates, dt). -/
def female_iterate (f : StressFns) (inputs : ℕ → ℚ × ℚ × ℚ) :
    ℕ → CohortState → CohortState
  | 0, st => st
  | n + 1, st =>
      female_iterate f inputs n
        (female_update f (inputs n).1 (inputs n).2.1 (inputs n).2.2 st)

/-- The flowering invariant: a female either has not flowered and owns exactly
its stalk, or has flowered and owns exactly one stalk, one mesocarp-fibers,
one mesocarp-oil and one kernel component, in that order. -/
def flowering_inv (st : CohortState) : Prop :=
  (st.has_flowered = false ∧ cohort_kinds st = [.stalk]) ∨
  (st.has_flowered = true ∧
    cohort_kinds st = [.stalk, .mesocarpFibers, .mesocarpOil, .kernels])

lemma kinds_map_of_kind_preserving (g : BunchComp → BunchComp)
    (hg : ∀ c, (g c).kind = c.kind) (l : List BunchComp) :
    (l.map g).map (fun c => c.kind) = l.map (fun c => c.kind) := by
  induction l with
  | nil => rfl
  | cons c rest ih => simp [hg, ih]

lemma cohort_update_kinds (f : StressFns) (stress assimGen dt : ℚ)
    (st : CohortState) :
    cohort_kinds (cohort_update f stress assimGen dt st) = cohort_kinds st := by
  show ((update_masses_go (assim_growth_organ st assimGen) dt []
      st.components).map (update_age_step dt)).map (fun c => c.kind)
    = st.components.map (fun c => c.kind)
  rw [update_masses_go_eq]
  simp only [List.nil_append]
  rw [kinds_map_of_kind_preserving (update_age_step dt) (fun c => rfl)]
  rw [kinds_map_of_kind_preserving
    (component_mass_step (assim_growth_organ st assimGen)
      (cohort_pss st.components) dt) (fun c => rfl)]

lemma cohort_update_flowered (f : StressFns) (stress assimGen dt : ℚ)
    (st : CohortState) :
    (cohort_update f stress assimGen dt st).has_flowered
      = st.has_flowered := rfl

lemma components_of_kinds_singleton (st : CohortState)
    (h : cohort_kinds st = [.stalk]) :
    ∃ c, st.components = [c] ∧ c.kind = CompKind.stalk := by
  rcases hc : st.components with _ | ⟨c, tail⟩
  · rw [cohort_kinds, hc] at h
    simp at h
  · rcases htail : tail with _ | ⟨d, rest⟩
    · refine ⟨c, rfl, ?_⟩
      rw [cohort_kinds, hc, htail] at h
      simpa using h
    · rw [cohort_kinds, hc, htail] at h
      simp at h

lemma set_fruit_kinds (st : CohortState) (c : BunchComp)
    (hc : st.components = [c]) (hk : c.kind = CompKind.stalk) :
    cohort_kinds (set_fruit st)
      = [.stalk, .mesocarpFibers, .mesocarpOil, .kernels] := by
  rw [cohort_kinds, set_fruit, hc]
  simp [List.headI, mkBunchComp, hk]

lemma female_update_inv (f : StressFns) (stress assimGen dt : ℚ)
    (st : CohortState) (h : flowering_inv st) :
    flowering_inv (female_update f stress assimGen dt st) := by
  rw [female_update]
  by_cases htr :
      should_trigger_flowering (cohort_update f stress assimGen dt st) = true
  · simp only [htr, if_true]
    have hnotfl : st.has_flowered = false := by
      rw [should_trigger_flowering, Bool.and_eq_true] at htr
      have := htr.2
      rw [cohort_update_flowered] at this
      simpa using this
    rcases h with ⟨_, hkst⟩ | ⟨hfl, _⟩
    · have hk1 : cohort_kinds (cohort_update f stress assimGen dt st)
          = [.stalk] := by
        rw [cohort_update_kinds, hkst]
      obtain ⟨c, hc, hck⟩ :=
        components_of_kinds_singleton _ hk1
      right
      exact ⟨rfl, set_fruit_kinds _ c hc hck⟩
    · rw [hfl] at hnotfl
      cases hnotfl
  · rw [if_neg htr]
    rcases h with ⟨hfl, hkst⟩ | ⟨hfl, hkst⟩
    · left
      rw [cohort_update_flowered, cohort_update_kinds]
      exact ⟨hfl, hkst⟩
    · right
      rw [cohort_update_flowered, cohort_update_kinds]
      exact ⟨hfl, hkst⟩

/-- C7: flowering is one-shot.  Starting from any state satisfying the
flowering invariant, iterated `Female.update` preserves it; once
`has_flowered` is true, `should_trigger_flowering` is false (so `set_fruit` is
never re-run) and the component list holds exactly one stalk, one
mesocarp-fibers, one mesocarp-oil and one kernel component. -/
theorem C7_flowering_one_shot (f : StressFns) (inputs : ℕ → ℚ × ℚ × ℚ)
    (st : CohortState) (h : flowering_inv st) (n : ℕ) :
    flowering_inv (female_iterate f inputs n st) ∧
    ((female_iterate f inputs n st).has_flowered = true →
      should_trigger_flowering (female_iterate f inputs n st) = false) ∧
    ((female_iterate f inputs n st).has_flowered = true →
      cohort_kinds (female_iterate f inputs n st)
        = [.stalk, .mesocarpFibers, .mesocarpOil, .kernels]) := by
  have hinv : flowering_inv (female_iterate f inputs n st) := by
    induction n generalizing st with
    | zero => exact h
    | succ m ih =>
        rw [female_iterate]
        exact ih _ (female_update_inv f _ _ _ st h)
  refine ⟨hinv, ?_, ?_⟩
  · intro hfl
    rw [should_trigger_flowering, hfl]
    simp
  · intro hfl
    rcases hinv with ⟨hf0, _⟩ | ⟨_, hk⟩
    · rw [hfl] at hf0
      cases hf0
    · exact hk

/-- Witness for C7 at a fresh unflowered Female with one stalk, constant
inputs, three steps. -/
theorem C7_flowering_one_shot_witness :
    flowering_inv (female_iterate ⟨fun _ => 0, fun _ => 0⟩ (fun _ => (0, 0, 1))
        3 ⟨.female, 1, 0, 1200, 240, 10, false, 0,
            [mkBunchComp .stalk (5/2) 1200 0]⟩) ∧
    ((female_iterate ⟨fun _ => 0, fun _ => 0⟩ (fun _ => (0, 0, 1)) 3
        ⟨.female, 1, 0, 1200, 240, 10, false, 0,
            [mkBunchComp .stalk (5/2) 1200 0]⟩).has_flowered = true →
      should_trigger_flowering (female_iterate ⟨fun _ => 0, fun _ => 0⟩
        (fun _ => (0, 0, 1)) 3 ⟨.female, 1, 0, 1200, 240, 10, false, 0,
            [mkBunchComp .stalk (5/2) 1200 0]⟩) = false) ∧
    ((female_iterate ⟨fun _ => 0, fun _ => 0⟩ (fun _ => (0, 0, 1)) 3
        ⟨.female, 1, 0, 1200, 240, 10, false, 0,
            [mkBunchComp .stalk (5/2) 1200 0]⟩).has_flowered = true →
      cohort_kinds (female_iterate ⟨fun _ => 0, fun _ => 0⟩
        (fun _ => (0, 0, 1)) 3 ⟨.female, 1, 0, 1200, 240, 10, false, 0,
            [mkBunchComp .stalk (5/2) 1200 0]⟩)
        = [.stalk, .mesocarpFibers, .mesocarpOil, .kernels]) :=
  C7_flowering_one_shot ⟨fun _ => 0, fun _ => 0⟩ (fun _ => (0, 0, 1))
    ⟨.female, 1, 0, 1200, 240, 10, false, 0,
        [mkBunchComp .stalk (5/2) 1200 0]⟩
    (Or.inl ⟨rfl, rfl⟩) 3

/-- Failing input for the harvest-selection claim: the older of two Female
cohorts, both of which become harvestible in the same step. -/
def harvestOlder : CohortState :=
  ⟨.female, 1, 1290, 1295, 0, 0, true, 0, []⟩

/-- Failing input for the harvest-selection claim: the younger Female cohort,
which sits later in the creation-ordered cohort list. -/
def harvestYounger : CohortState :=
  ⟨.female, 1, 1280, 1288, 0, 0, true, 0, []⟩

/-- Zero stress-response curves (the stress index is 0 at this input, and the
ages lie outside both abortion windows anyway). -/
def zeroStressFns : StressFns := ⟨fun _ => 0, fun _ => 0⟩

/-- C2: at the failing input (cohort list `[harvestOlder, harvestYounger]` in
creation order, `dt = 10`), after aging both females are harvestible with ages
1300 and 1290; the code records `harvest[0]`, the FIRST harvestible female in
list order — the oldest (age 1300) — as the single harvest cohort, although
the youngest harvestible female (age 1290) exists, contradicting the
"youngest" selection that both the spec and the code's own comment state.
The recording does happen before deletable cohorts are removed: both females
are deletable this very step, yet the bunch list is nonempty. -/
theorem C2_harvest_records_oldest :
    (container_update zeroStressFns 0 (1/2) 1300 0 0 10
        ⟨[harvestOlder, harvestYounger], [], 0⟩).bunches.map (fun c => c.age)
      = [1300] ∧
    (harvest_list (container_aged zeroStressFns 0 0 (1/2) 1300 0 0 10
        [harvestOlder, harvestYounger])).map (fun c => c.age)
      = [1300, 1290] ∧
    ((container_update zeroStressFns 0 (1/2) 1300 0 0 10
        ⟨[harvestOlder, harvestYounger], [], 0⟩).cohorts.filter
          (fun c => decide (c.sex = .female))).length = 0 := by
  refine ⟨?_, ?_, ?_⟩ <;>
    norm_num [container_update, container_aged, record_bunches, harvest_list,
      update_sex, new_indeterminate, set_relative_sink_strengths,
      cohort_sink_strength, cohort_pss, stress_index, Ic, cohort_step,
      female_update, cohort_update, update_masses_go, update_age_step,
      should_trigger_flowering, t_anthesis, abortion_fraction,
      inflorescence_abortion_fraction, bunch_failure_fraction,
      inflorescence_abortion_t0, inflorescence_abortion_t1, bunch_failure_t0,
      bunch_failure_t1, assim_growth_organ, is_harvestible, is_deletable,
      set_fruit, mkBunchComp, get_potential_sink_strength,
      mass_growth_rate_potential, quadratic_function, harvestOlder,
      harvestYounger, zeroStressFns, potential_mass_fraction,
      growth_start_frac, growth_end_frac, conversion_efficiency,
      List.filter, harvestOlder, harvestYounger] <;> rfl

end Palmsim
